import Mathlib

/-!
Shallow embedding of the kokinedo/portfolio content model.

The repository is a portfolio/blog site.  Its genuine data content is:
  * a Post Collection: seven MDX files under `src/app/blog/posts` (four named
    files plus three whose filenames were not preserved), each carrying a
    front-matter block of key/value pairs (`title`, `summary`, `publishedAt`,
    `tag`, optional `image`);
  * a Content Registry (`src/app/resources/content.js`): a person record with
    a derived `name` getter, a list of social links, and a work-experience
    list under the about page.

Each front-matter block is embedded as the association list of its keys in
file order; the registry records are embedded as structures whose fields are
transcribed from the object literal.  Date parsing and the descending sort by
`publishedAt` belong to the (external) listing renderer, so those two
operations are modelled from the spec's words, as marked on their
definitions.
-/

namespace Portfolio

/-- A blog post: the MDX file's name and its front-matter block, embedded as
the association list of key/value pairs in the order they appear in the
file. -/
structure Post where
  file : String
  frontMatter : List (String × String)
deriving DecidableEq

/-- Front-matter lookup: the value of key `k`, when the block supplies it. -/
def Post.getKey (p : Post) (k : String) : Option String :=
  p.frontMatter.lookup k

/-- The `title` front-matter value (empty when absent). -/
def Post.title (p : Post) : String :=
  (p.getKey "title").getD ""

/-- The `summary` front-matter value (empty when absent). -/
def Post.summary (p : Post) : String :=
  (p.getKey "summary").getD ""

/-- The `publishedAt` front-matter value (empty when absent). -/
def Post.publishedAt (p : Post) : String :=
  (p.getKey "publishedAt").getD ""

/-- `src/app/blog/posts/blog.mdx`. -/
def blogPost : Post :=
  ⟨"blog.mdx",
   [("title", "Building Production-Ready AI Applications: Architecture & Implementation"),
    ("summary", "Learn to build scalable AI applications with RAG, vector databases, API design, and production deployment strategies for real-world AI systems."),
    ("publishedAt", "2025-01-22"),
    ("tag", "AI Applications")]⟩

/-- `src/app/blog/posts/design.mdx` (the Computer Vision post). -/
def designPost : Post :=
  ⟨"design.mdx",
   [("title", "Computer Vision and Multimodal AI: Beyond Text Generation"),
    ("summary", "Explore advanced computer vision architectures, multimodal AI systems, and techniques for building AI that understands both visual and textual data."),
    ("publishedAt", "2025-02-02"),
    ("tag", "Computer Vision")]⟩

/-- `src/app/blog/posts/quick-start.mdx` (the AI Engineering Best Practices
post; the one file that also carries an `image` key). -/
def quickStartPost : Post :=
  ⟨"quick-start.mdx",
   [("title", "AI Engineering Best Practices: From Research to Production"),
    ("summary", "Essential practices for building robust, scalable AI systems. Learn MLOps, model deployment, monitoring, and production-ready AI engineering workflows."),
    ("image", "/images/og/home.jpg"),
    ("publishedAt", "2025-01-15"),
    ("tag", "AI Engineering")]⟩

/-- `src/app/blog/posts/work.mdx`. -/
def workPost : Post :=
  ⟨"work.mdx",
   [("title", "LLM Fine-tuning Strategies: From LoRA to Full Parameter Training"),
    ("summary", "Master the art of fine-tuning large language models. Deep dive into LoRA, QLoRA, full fine-tuning, and advanced techniques for optimal performance."),
    ("publishedAt", "2025-01-18"),
    ("tag", "LLM Engineering")]⟩

/-- The first unnamed MDX post file (Neural Network Optimization). -/
def neuralNetworkPost : Post :=
  ⟨"unnamed-001.mdx",
   [("title", "Neural Network Optimization: Advanced Techniques for AI Engineers"),
    ("summary", "Master advanced optimization techniques including adaptive learning rates, gradient scaling, architecture search, and hardware-specific optimizations for neural networks."),
    ("publishedAt", "2025-01-28"),
    ("tag", "Deep Learning")]⟩

/-- The second unnamed MDX post file (Transformer Architectures). -/
def transformerPost : Post :=
  ⟨"unnamed-002.mdx",
   [("title", "Transformer Architectures Deep Dive: From Attention to Modern LLMs"),
    ("summary", "Comprehensive exploration of transformer architectures, attention mechanisms, positional encoding, and recent innovations like RoPE and FlashAttention."),
    ("publishedAt", "2025-01-25"),
    ("tag", "Deep Learning")]⟩

/-- The third unnamed MDX post file (Advanced Prompt Engineering). -/
def promptEngineeringPost : Post :=
  ⟨"unnamed-003.mdx",
   [("title", "Advanced Prompt Engineering: Beyond Basic Instructions"),
    ("summary", "Master sophisticated prompt engineering techniques including chain-of-thought, tree-of-thought, and context optimization for maximum LLM performance."),
    ("publishedAt", "2025-01-20"),
    ("tag", "Prompt Engineering")]⟩

/-- The Post Collection: the seven MDX post files of the repository. -/
def postCollection : List Post :=
  [blogPost, designPost, quickStartPost, workPost,
   neuralNetworkPost, transformerPost, promptEngineeringPost]

/-! ### Lexicographic order on strings -/

/-- Strict lexicographic order on character lists, comparing characters by
their Unicode code point. -/
def charListLt : List Char → List Char → Bool
  | [], [] => false
  | [], _ :: _ => true
  | _ :: _, [] => false
  | a :: as, b :: bs =>
    Nat.blt a.toNat b.toNat || (Nat.beq a.toNat b.toNat && charListLt as bs)

/-- Strict lexicographic order on strings. -/
def lexLt (s t : String) : Bool :=
  charListLt s.data t.data

/-! ### Calendar dates and ISO `YYYY-MM-DD` parsing -/

/-- A calendar date. -/
structure Date where
  year : Nat
  month : Nat
  day : Nat
deriving DecidableEq

/-- Gregorian leap-year rule. -/
def isLeapYear (y : Nat) : Bool :=
  (y % 4 == 0 && y % 100 != 0) || y % 400 == 0

/-- Number of days of month `m` of year `y`. -/
def daysInMonth (y m : Nat) : Nat :=
  if m == 2 then (if isLeapYear y then 29 else 28)
  else if m == 4 || m == 6 || m == 9 || m == 11 then 30
  else 31

/-- The number a list of decimal digit characters denotes. -/
def digitsToNat (cs : List Char) : Nat :=
  cs.foldl (fun n c => n * 10 + (c.toNat - 48)) 0

/-- Split a character list on the dash character. -/
def splitOnDash : List Char → List (List Char)
  | [] => [[]]
  | c :: rest =>
    match splitOnDash rest, c == '-' with
    | groups, true => [] :: groups
    | [], false => [[c]]
    | g :: gs, false => (c :: g) :: gs

/-- Modelled from the spec: the listing renderer (external to this
repository) requires `publishedAt` to be an unambiguous ISO date string of
shape `YYYY-MM-DD` that denotes a valid calendar date.  `parseISODate`
accepts exactly the strings of that shape (four digits, dash, two digits,
dash, two digits, with the month in 1..12 and the day within the month's
length) and returns the date they denote. -/
def parseISODate (s : String) : Option Date :=
  match splitOnDash s.data with
  | [ys, ms, ds] =>
    if ys.length == 4 && ms.length == 2 && ds.length == 2 &&
       ys.all Char.isDigit && ms.all Char.isDigit && ds.all Char.isDigit then
      let y := digitsToNat ys
      let m := digitsToNat ms
      let d := digitsToNat ds
      if Nat.ble 1 m && Nat.ble m 12 && Nat.ble 1 d && Nat.ble d (daysInMonth y m) then
        some ⟨y, m, d⟩
      else none
    else none
  | _ => none

/-- Strict chronological order on calendar dates: year, then month, then
day. -/
def Date.chronLT (a b : Date) : Bool :=
  Nat.blt a.year b.year ||
    (Nat.beq a.year b.year &&
      (Nat.blt a.month b.month ||
        (Nat.beq a.month b.month && Nat.blt a.day b.day)))

/-! ### The descending sort by `publishedAt` -/

/-- Modelled from the spec: one insertion step of the listing renderer's
descending sort.  A post sinks past every post with a strictly later
`publishedAt`. -/
def insertPostDesc (p : Post) : List Post → List Post
  | [] => [p]
  | q :: qs =>
    if lexLt p.publishedAt q.publishedAt then q :: insertPostDesc p qs
    else p :: q :: qs

/-- Modelled from the spec: the listing renderer sorts the Post Collection by
`publishedAt` descending (insertion sort with `insertPostDesc`). -/
def sortPostsDesc : List Post → List Post
  | [] => []
  | p :: ps => insertPostDesc p (sortPostsDesc ps)

/-- A list of posts is ordered by `publishedAt` descending when no post is
followed by one with a strictly later `publishedAt`. -/
def DescendingByPublishedAt (l : List Post) : Prop :=
  l.Pairwise fun a b => lexLt a.publishedAt b.publishedAt = false

/-! ### The Content Registry -/

/-- The `person` record of `src/app/resources/content.js`. -/
structure Person where
  firstName : String
  lastName : String
  role : String
  avatar : String
  email : String
  location : String
  languages : List String
deriving DecidableEq

/-- The derived `name` getter of the `person` record: the template literal
interpolating `firstName`, a space, and `lastName`. -/
def Person.name (p : Person) : String :=
  p.firstName ++ " " ++ p.lastName

/-- The `person` object literal of `src/app/resources/content.js`. -/
def person : Person :=
  ⟨"Kevin", "Okinedo", "Software Engineer", "/images/avatar.jpg",
   "kokinedo@gmail.com", "America/New_York", ["English"]⟩

/-- One entry of the `social` list of `src/app/resources/content.js`. -/
structure SocialLink where
  name : String
  icon : String
  link : String
deriving DecidableEq

/-- The GitHub entry of the `social` list. -/
def socialGitHub : SocialLink :=
  ⟨"GitHub", "github", "https://github.com/kokinedo"⟩

/-- The LinkedIn entry of the `social` list. -/
def socialLinkedIn : SocialLink :=
  ⟨"LinkedIn", "linkedin", "https://www.linkedin.com/in/kevin-okinedo-39538719b/"⟩

/-- The X entry of the `social` list (its `link` is the empty string). -/
def socialX : SocialLink :=
  ⟨"X", "x", ""⟩

/-- The Email entry of the `social` list; its `link` is the template literal
prefixing `person.email` with the mailto scheme. -/
def socialEmail : SocialLink :=
  ⟨"Email", "email", "mailto:" ++ person.email⟩

/-- The `social` list of `src/app/resources/content.js`, in source order. -/
def social : List SocialLink :=
  [socialGitHub, socialLinkedIn, socialX, socialEmail]

/-- One entry of `about.work.experiences` in
`src/app/resources/content.js`. -/
structure WorkExperience where
  company : String
  timeframe : String
  role : String
  achievements : List String
  images : List String
deriving DecidableEq

/-- The Splunk entry of `about.work.experiences`. -/
def splunkExperience : WorkExperience :=
  ⟨"Splunk Inc.", "May 2023 - Present", "Senior Software Engineer",
   ["Revamped the Anomaly application UI using React, integrating LLM-powered insights that enhanced user experience and reduced analysis time by 40%.",
    "Led development of a confidential AI project utilizing LlamaIndex for RAG implementation, building the entire front-end codebase with real-time LLM interaction capabilities.",
    "Implemented advanced MLOps pipelines using TensorFlow and PyTorch for fine-tuning large language models, reducing inference latency by 30% and improving model accuracy by 15%.",
    "Designed scalable Node.js architecture supporting 10,000+ concurrent users with vector database integration for semantic search, achieving 50ms average response times.",
    "Built real-time data processing pipeline using Kafka and Spark for LLM training data preparation, processing 100,000+ events per second for continuous model improvement."],
   []⟩

/-- The Microsoft entry of `about.work.experiences`. -/
def microsoftExperience : WorkExperience :=
  ⟨"Microsoft Inc.", "Aug 2021 - May 2023", "Software Engineer II",
   ["Led development team building AI-enhanced software applications, implementing GPT-3 integration across Microsoft products with 100% on-time delivery record.",
    "Designed ETL pipelines for training data preparation using Python and SQL, optimizing transformer model training workflows and data quality validation.",
    "Enhanced search algorithms with transformer-based semantic understanding, implementing BERT models for natural language query processing and improving search relevance by 35%.",
    "Developed .NET microservices for AI model serving using Azure ML, implementing efficient message queuing with RabbitMQ for distributed inference requests.",
    "Architected data governance solutions on Azure for LLM training datasets, ensuring compliance and implementing automated data lineage tracking for model auditing."],
   []⟩

/-- The Asset-Map entry of `about.work.experiences`. -/
def assetMapExperience : WorkExperience :=
  ⟨"Asset-Map Inc.", "Jan 2020 - Jul 2021", "Software Engineer II",
   ["Enhanced search capabilities using Elasticsearch and Node.js with NLP preprocessing, implementing entity recognition and semantic query expansion to improve search precision by 40%.",
    "Built intelligent URL validation system in Angular using machine learning models, reducing false positives by 60% and cutting support workload by 25%.",
    "Developed Python-based financial simulation engine with natural language interfaces, enabling users to configure complex scenarios through conversational AI, optimizing workflow efficiency.",
    "Spearheaded cloud migration from GCP to AWS, implementing containerized ML model serving with Kubernetes, Aurora databases, and infrastructure-as-code using CloudFormation.",
    "Created intelligent automation scripts using Python and PowerShell with anomaly detection capabilities, reducing manual intervention by 70% through predictive maintenance algorithms."],
   []⟩

/-- The Kined Systems entry of `about.work.experiences`. -/
def kinedSystemsExperience : WorkExperience :=
  ⟨"Kined Systems Inc.", "Mar 2017 - Nov 2019", "Software Engineer",
   ["Developed Golang-based knowledge management platform utilizing early transformer architectures and graph neural networks for intelligent document processing and relationship extraction.",
    "Implemented secure API integration layer using Java for multi-modal data processing, enabling seamless interaction between NLP models and various enterprise databases.",
    "Built knowledge graph platform using Golang, Ruby on Rails, and GraphQL, incorporating word embeddings and entity linking for semantic content organization and retrieval.",
    "Created intelligent data extraction agents using Golang with custom NLP pipelines, implementing named entity recognition and sentiment analysis for automated content processing.",
    "Architected event-driven microservices with Spring Boot and Kafka, designing scalable infrastructure for processing millions of text documents daily with ML-powered content classification."],
   []⟩

/-- The McKinsey entry of `about.work.experiences`. -/
def mckinseyExperience : WorkExperience :=
  ⟨"McKinsey & Company Inc.", "Apr 2015 - Feb 2017", "Full Stack Developer",
   ["Built responsive web applications using React with integrated machine learning components, implementing predictive analytics dashboards for client engagement optimization.",
    "Developed internal applications using React, Angular, and Node.js with embedded ML models for text analysis, enabling automated insight generation from business documents.",
    "Designed RESTful APIs in Java and C# supporting machine learning workflows, implementing efficient data pipelines for training traditional ML models on client datasets.",
    "Enhanced employee learning platforms by implementing recommendation algorithms using Python and scikit-learn, personalizing content delivery and improving engagement by 25%.",
    "Optimized front-end performance through intelligent caching and predictive loading algorithms, achieving 15% performance improvement in data-heavy analytical applications."],
   []⟩

/-- The `about.work.experiences` list of `src/app/resources/content.js`, in
source order. -/
def aboutWorkExperiences : List WorkExperience :=
  [splunkExperience, microsoftExperience, assetMapExperience,
   kinedSystemsExperience, mckinseyExperience]

end Portfolio

namespace Portfolio

set_option maxRecDepth 40000

instance (l : List Post) : Decidable (DescendingByPublishedAt l) := by
  unfold DescendingByPublishedAt
  infer_instance

/-- Two characters with the same code point are equal. -/
theorem char_toNat_inj {a b : Char} (h : a.toNat = b.toNat) : a = b :=
  Char.ext (UInt32.eq_of_toBitVec_eq (BitVec.eq_of_toNat_eq h))

/-- Lexicographic order on character lists is asymmetric. -/
theorem charListLt_asymm : ∀ {x y : List Char},
    charListLt x y = true → charListLt y x = true → False
  | [], [], h, _ => by simp [charListLt] at h
  | [], _ :: _, _, h' => by simp [charListLt] at h'
  | _ :: _, [], h, _ => by simp [charListLt] at h
  | _ :: as, _ :: bs, h, h' => by
    simp only [charListLt, Bool.or_eq_true, Bool.and_eq_true, Nat.blt_eq, Nat.beq_eq] at h h'
    rcases h with h | ⟨he, ht⟩ <;> rcases h' with h' | ⟨he', ht'⟩ <;> try omega
    exact charListLt_asymm ht ht'

/-- Character lists neither of which is lexicographically below the other are
equal. -/
theorem charListLt_eq_of_ff : ∀ {x y : List Char},
    charListLt x y = false → charListLt y x = false → x = y
  | [], [], _, _ => rfl
  | [], _ :: _, h, _ => by simp [charListLt] at h
  | _ :: _, [], _, h' => by simp [charListLt] at h'
  | a :: as, b :: bs, h, h' => by
    rw [← Bool.not_eq_true] at h h'
    simp only [charListLt, Bool.or_eq_true, Bool.and_eq_true, Nat.blt_eq, Nat.beq_eq,
      not_or, not_and] at h h'
    by_cases he : a.toNat = b.toNat
    · have h2 := h.2 he
      have h2' := h'.2 he.symm
      rw [Bool.not_eq_true] at h2 h2'
      exact congrArg₂ List.cons (char_toNat_inj he) (charListLt_eq_of_ff h2 h2')
    · exact absurd (Nat.le_antisymm (Nat.not_lt.mp h'.1) (Nat.not_lt.mp h.1)) he

/-- Lexicographic order on strings is asymmetric. -/
theorem lexLt_asymm {s t : String} (h : lexLt s t = true) (h' : lexLt t s = true) : False :=
  charListLt_asymm h h'

/-- Strings neither of which is lexicographically below the other are
equal. -/
theorem lexLt_eq_of_ff {s t : String} (h : lexLt s t = false) (h' : lexLt t s = false) :
    s = t :=
  String.toList_inj.mp (charListLt_eq_of_ff h h')

/-- On an enumeration of the Post Collection that is ordered by `publishedAt`
descending, consecutive-order pairs are strictly descending, because the
collection's dates are pairwise distinct. -/
theorem strict_desc_of_sorted_perm {l : List Post} (hperm : l.Perm postCollection)
    (hsort : DescendingByPublishedAt l) :
    l.Pairwise fun a b => lexLt b.publishedAt a.publishedAt = true := by
  have hmap : (l.map Post.publishedAt).Perm (postCollection.map Post.publishedAt) :=
    hperm.map Post.publishedAt
  have hnd : (l.map Post.publishedAt).Nodup :=
    hmap.nodup_iff.mpr (by decide)
  have hne : l.Pairwise fun a b => Post.publishedAt a ≠ Post.publishedAt b :=
    List.pairwise_map.mp hnd
  unfold DescendingByPublishedAt at hsort
  refine List.Pairwise.imp ?_ (hsort.and hne)
  intro a b hab
  cases hlt : lexLt b.publishedAt a.publishedAt with
  | true => rfl
  | false => exact absurd (lexLt_eq_of_ff hab.1 hlt) hab.2

/-- The descending enumeration of the seven posts, used as the concrete
sorted order in witnesses. -/
def sortedSevenPosts : List Post :=
  [designPost, neuralNetworkPost, transformerPost, blogPost,
   promptEngineeringPost, workPost, quickStartPost]

end Portfolio

namespace Portfolio

set_option maxRecDepth 80000

/-- C1: every enumeration of the seven post files that is ordered by
`publishedAt` descending places the Computer Vision post (publishedAt
2025-02-02) before the AI Engineering Best Practices post (publishedAt
2025-01-15). -/
theorem enumeration_design_before_quickStart (l : List Post)
    (hperm : l.Perm postCollection) (hsort : DescendingByPublishedAt l) :
    ∃ i j : Fin l.length, (i : Nat) < (j : Nat) ∧
      l.get i = designPost ∧ l.get j = quickStartPost := by
  have hd : designPost ∈ l := hperm.mem_iff.mpr (by decide)
  have hq : quickStartPost ∈ l := hperm.mem_iff.mpr (by decide)
  obtain ⟨i, hi⟩ := List.get_of_mem hd
  obtain ⟨j, hj⟩ := List.get_of_mem hq
  have hsort' : l.Pairwise fun a b => lexLt a.publishedAt b.publishedAt = false := hsort
  have hpw := List.pairwise_iff_get.mp hsort'
  rcases Nat.lt_trichotomy (i : Nat) (j : Nat) with h | h | h
  · exact ⟨i, j, h, hi, hj⟩
  · exfalso
    have hij : i = j := Fin.ext h
    rw [hij, hj] at hi
    exact absurd hi (by decide)
  · exfalso
    have hji := hpw j i h
    rw [hi, hj] at hji
    exact absurd hji (by decide)

/-- C1 witness: the concrete descending enumeration of the seven posts
places the Computer Vision post before the AI Engineering Best Practices
post. -/
theorem enumeration_design_before_quickStart_witness :
    ∃ i j : Fin sortedSevenPosts.length, (i : Nat) < (j : Nat) ∧
      sortedSevenPosts.get i = designPost ∧ sortedSevenPosts.get j = quickStartPost :=
  enumeration_design_before_quickStart sortedSevenPosts (by decide) (by decide)

/-- C2: every post of the Post Collection supplies the front-matter keys
`title`, `summary` and `publishedAt`, and its `publishedAt` value is a
string of shape `YYYY-MM-DD` denoting a valid calendar date. -/
theorem posts_have_required_frontMatter (p : Post) (hp : p ∈ postCollection) :
    (p.getKey "title").isSome ∧ (p.getKey "summary").isSome ∧
      ∃ s, p.getKey "publishedAt" = some s ∧ (parseISODate s).isSome := by
  have H : ∀ q ∈ postCollection,
      (q.getKey "title").isSome ∧ (q.getKey "summary").isSome ∧
        (q.getKey "publishedAt").isSome ∧
        (parseISODate ((q.getKey "publishedAt").getD "")).isSome := by decide
  obtain ⟨h1, h2, h3, h4⟩ := H p hp
  obtain ⟨s, hs⟩ := Option.isSome_iff_exists.mp h3
  rw [hs] at h4
  exact ⟨h1, h2, s, hs, by simpa using h4⟩

/-- C2 witness: the Computer Vision post supplies the three required keys
and its `publishedAt` parses as a valid date. -/
theorem posts_have_required_frontMatter_witness :
    designPost ∈ postCollection ∧
      ((designPost.getKey "title").isSome ∧ (designPost.getKey "summary").isSome ∧
        ∃ s, designPost.getKey "publishedAt" = some s ∧ (parseISODate s).isSome) :=
  ⟨by decide, posts_have_required_frontMatter designPost (by decide)⟩

/-- C3: the derived `name` getter of the `person` record equals
`firstName ++ " " ++ lastName` for every person value, and on the registry's
`person` it returns `"Kevin Okinedo"`. -/
theorem person_name_getter :
    (∀ p : Person, p.name = p.firstName ++ " " ++ p.lastName) ∧
      person.name = "Kevin Okinedo" :=
  ⟨fun _ => rfl, rfl⟩

/-- C4: on every pair of posts of the Post Collection, comparing the
`publishedAt` strings lexicographically agrees with comparing the calendar
dates they parse to chronologically. -/
theorem lex_agrees_with_chronological (p q : Post)
    (hp : p ∈ postCollection) (hq : q ∈ postCollection) (dp dq : Date)
    (hdp : parseISODate p.publishedAt = some dp)
    (hdq : parseISODate q.publishedAt = some dq) :
    (lexLt p.publishedAt q.publishedAt = true ↔ Date.chronLT dp dq = true) := by
  have H : ∀ a ∈ postCollection, ∀ b ∈ postCollection,
      (lexLt a.publishedAt b.publishedAt = true ↔
        Date.chronLT ((parseISODate a.publishedAt).getD ⟨0, 0, 0⟩)
          ((parseISODate b.publishedAt).getD ⟨0, 0, 0⟩) = true) := by decide
  have h := H p hp q hq
  rw [hdp, hdq] at h
  simpa using h

/-- C4 witness: on the Computer Vision and AI Engineering posts, the
lexicographic comparison of the date strings agrees with the chronological
comparison of the parsed dates. -/
theorem lex_agrees_with_chronological_witness :
    designPost ∈ postCollection ∧ quickStartPost ∈ postCollection ∧
      parseISODate designPost.publishedAt = some ⟨2025, 2, 2⟩ ∧
      parseISODate quickStartPost.publishedAt = some ⟨2025, 1, 15⟩ ∧
      (lexLt designPost.publishedAt quickStartPost.publishedAt = true ↔
        Date.chronLT ⟨2025, 2, 2⟩ ⟨2025, 1, 15⟩ = true) :=
  ⟨by decide, by decide, by decide, by decide,
    lex_agrees_with_chronological designPost quickStartPost (by decide) (by decide)
      ⟨2025, 2, 2⟩ ⟨2025, 1, 15⟩ (by decide) (by decide)⟩

/-- C5: the descending-by-`publishedAt` sort is idempotent on the Post
Collection: sorting the already-sorted collection yields the same order. -/
theorem sort_idempotent_on_collection :
    sortPostsDesc (sortPostsDesc postCollection) = sortPostsDesc postCollection := by
  decide

/-- C6: every post of the Post Collection has a non-empty `title` and a
non-empty `summary`. -/
theorem posts_title_summary_nonempty (p : Post) (hp : p ∈ postCollection) :
    p.title ≠ "" ∧ p.summary ≠ "" := by
  have H : ∀ q ∈ postCollection, q.title ≠ "" ∧ q.summary ≠ "" := by decide
  exact H p hp

/-- C6 witness: the blog.mdx post has a non-empty title and summary. -/
theorem posts_title_summary_nonempty_witness :
    blogPost ∈ postCollection ∧ (blogPost.title ≠ "" ∧ blogPost.summary ≠ "") :=
  ⟨by decide, posts_title_summary_nonempty blogPost (by decide)⟩

/-- C7: every entry of the `social` list has a non-empty `name` and a
non-empty `icon`. -/
theorem social_name_icon_nonempty (s : SocialLink) (hs : s ∈ social) :
    s.name ≠ "" ∧ s.icon ≠ "" := by
  have H : ∀ t ∈ social, t.name ≠ "" ∧ t.icon ≠ "" := by decide
  exact H s hs

/-- C7 witness: the GitHub entry has a non-empty name and icon. -/
theorem social_name_icon_nonempty_witness :
    socialGitHub ∈ social ∧ (socialGitHub.name ≠ "" ∧ socialGitHub.icon ≠ "") :=
  ⟨by decide, social_name_icon_nonempty socialGitHub (by decide)⟩

/-- C8: the `social` list has an entry for the X platform whose `link` is
the empty string, and it is the only entry with an empty `link`. -/
theorem social_X_unique_empty_link :
    (∃ s ∈ social, s.name = "X" ∧ s.link = "") ∧
      (∀ s ∈ social, s.link = "" → s.name = "X") ∧
      (∀ s ∈ social, s.name ≠ "X" → s.link ≠ "") := by
  decide

/-- C9: every entry of the work-experience list (the five companies, in
source order) has the empty list as its `images` field. -/
theorem work_experience_images_empty :
    aboutWorkExperiences.map WorkExperience.company =
      ["Splunk Inc.", "Microsoft Inc.", "Asset-Map Inc.", "Kined Systems Inc.",
       "McKinsey & Company Inc."] ∧
      ∀ e ∈ aboutWorkExperiences, e.images = [] := by
  decide

/-- C10: the `publishedAt` dates of the seven posts are pairwise distinct,
the descending order of those dates is the listed one, and hence any two
enumerations of the collection ordered by `publishedAt` descending are
equal: the descending order is uniquely determined, with no ties. -/
theorem publishedAt_distinct_unique_order :
    (postCollection.map Post.publishedAt).Pairwise (· ≠ ·) ∧
      (sortPostsDesc postCollection).map Post.publishedAt =
        ["2025-02-02", "2025-01-28", "2025-01-25", "2025-01-22",
         "2025-01-20", "2025-01-18", "2025-01-15"] ∧
      ∀ l₁ l₂ : List Post, l₁.Perm postCollection → l₂.Perm postCollection →
        DescendingByPublishedAt l₁ → DescendingByPublishedAt l₂ → l₁ = l₂ := by
  refine ⟨by decide, by decide, ?_⟩
  intro l₁ l₂ h1 h2 hs1 hs2
  have hgt1 := strict_desc_of_sorted_perm h1 hs1
  have hgt2 := strict_desc_of_sorted_perm h2 hs2
  haveI : IsAntisymm Post fun a b => lexLt b.publishedAt a.publishedAt = true :=
    ⟨fun _ _ hab hba => (lexLt_asymm hab hba).elim⟩
  exact List.eq_of_perm_of_sorted (h1.trans h2.symm) hgt1 hgt2

end Portfolio
